import Mathlib

/-!
Shallow embedding of the pydantic-core validation/serialization core:
the temporal value model (`src/input/datetime.rs`), the mapping (dict)
validator (`src/validators/dict.rs`), and the fallback policy of the
timedelta and typed-dict serializers
(`src/serializers/type_serializers/{timedelta,typed_dict}.rs`).

Machine integers are modelled as `Int`/`Nat` with explicit reductions
modulo `2 ^ 32` where the Rust code casts to `u32`.  Floating point
inputs are modelled as exact rationals; `floor`, `fract`, `round` and
`signum` are the exact mathematical operations matching the Rust `f64`
methods (`round` rounds half away from zero, as in Rust).
Host (Python) objects are modelled by their extracted field values.
-/

/-! ## Error model

Translated from the error plumbing used by `src/validators/dict.rs` and
`src/input/datetime.rs`.  The `errors` module itself is outside the
provided sources; the pieces below (`ValError::new` producing a single
line error, `with_outer_location` pushing a location item so the final
path reads outside-in) are modelled from the spec. -/

/-- A location item: a string key, an integer index, or the synthetic
string marker distinguishing key failures (`LocItem` in the error model).
Mapping keys are modelled as integers here, so `i` covers `as_loc_item`
for keys and `s` covers string markers such as the literal key marker. -/
inductive LocItem where
  | s (value : String)
  | i (value : Int)
deriving DecidableEq

/-- Error kinds relevant to the embedded components
(`ErrorKind` taxonomy; `other` stands for any child-validator kind). -/
inductive ErrKind where
  | tooShort (min_length : Nat)
  | tooLong (max_length : Nat)
  | timeParsing (error : String)
  | dateTimeParsing (error : String)
  | timeDeltaParsing (error : String)
  | other (tag : Nat)
deriving DecidableEq

/-- One recoverable validation failure: an error kind plus its location
path (`ValLineError`). -/
structure LineErr where
  kind : ErrKind
  loc : List LocItem
deriving DecidableEq

/-- `ValError`: either aggregated recoverable line errors or a fatal
(internal) error that aborts validation immediately. -/
inductive ValErr where
  | lineErrors (errors : List LineErr)
  | fatal (tag : Nat)
deriving DecidableEq

/-- Modelled from the spec: `ValError::new(kind, input)` wraps a single
line error carrying `kind` with an empty location path. -/
def valErrNew (kind : ErrKind) : ValErr :=
  ValErr.lineErrors [⟨kind, []⟩]

/-- Modelled from the spec: `with_outer_location` pushes the enclosing
frame's location item at the front of the path, so the final path reads
outside-in. -/
def withOuterLocation (item : LocItem) (e : LineErr) : LineErr :=
  ⟨e.kind, item :: e.loc⟩

/-! ## Temporal value model (`src/input/datetime.rs`) -/

/-- Diagnostic tokens of the external byte-string grammar
(`speedate::ParseError`), restricted to the variants the embedded code
constructs. -/
inductive ParseError where
  | tooShort
  | timeTooLarge
deriving DecidableEq

def tooShortDoc : String := "too_short"

def timeTooLargeDoc : String := "time_too_large"

/-- Modelled from the spec: the external grammar's diagnostic text,
surfaced verbatim inside the engine's own error kinds
(`err.get_documentation()`). -/
def ParseError.get_documentation : ParseError → String
  | ParseError.tooShort => tooShortDoc
  | ParseError.timeTooLarge => timeTooLargeDoc

/-- The raw duration representation (`speedate::Duration`): a sign flag,
an unsigned day count, an unsigned second-of-day, and an unsigned
microsecond count. -/
structure Duration where
  positive : Bool
  day : Nat
  second : Nat
  microsecond : Nat
deriving DecidableEq

/-- Modelled from the spec: the external `Duration::new` constructor.
Per the spec's data model the duration is stored as the given sign flag,
day count, second-of-day and microsecond magnitude; the fallible range
check of the external crate is not modelled, so the Rust `Err` arm of
the caller is unreachable here. -/
def Duration.new (positive : Bool) (day second microsecond : Nat) : Duration :=
  ⟨positive, day, second, microsecond⟩

/-- The magnitude of a stored duration re-expanded to total
microseconds (ignoring the sign flag). -/
def total_micros (d : Duration) : Nat :=
  (d.day * 86400 + d.second) * 1000000 + d.microsecond

/-- `int_as_duration(seconds, microseconds)` from
`src/input/datetime.rs` lines 357-373.  The `as u32` cast of
`microseconds.unsigned_abs()` truncates modulo `2 ^ 32`; the
`(seconds % 86400) as u32` cast is exact since the remainder is below
86400. -/
def int_as_duration (seconds microseconds : Int) : Except ParseError Duration :=
  if seconds ≠ 0 ∧ microseconds ≠ 0 ∧ seconds.sign ≠ microseconds.sign then
    Except.error ParseError.tooShort
  else
    let positive : Bool := decide (0 ≤ seconds)
    let s : Nat := seconds.natAbs
    Except.ok (Duration.new positive (s / 86400) (s % 86400) (microseconds.natAbs % 4294967296))

/-- `pytimedelta_as_timedelta` from `src/input/datetime.rs` lines 90-99,
applied to the extracted `days`/`seconds`/`microseconds` attributes of a
native timedelta (Python normalizes these so that
`0 ≤ seconds < 86400` and `0 ≤ microseconds < 1000000`).  The Rust code
calls `.unwrap()` on the result, so an `Except.error` value here is a
panic of the original code. -/
def pytimedelta_as_timedelta (day second microsecond : Int) : Except ParseError Duration :=
  int_as_duration (day * 86400 + second) microsecond

/-- The raw time-of-day representation (`speedate::Time`). -/
structure Time where
  hour : Nat
  minute : Nat
  second : Nat
  microsecond : Nat
deriving DecidableEq

/-- Modelled from the spec: the external `Time::from_timestamp`, the
single canonical range checker for time-of-day; it carries whole-second
microsecond overflow into the seconds and rejects times of 86400 seconds
or more. -/
def Time.from_timestamp (timestamp_second timestamp_microsecond : Nat) : Except ParseError Time :=
  let second : Nat := timestamp_second + timestamp_microsecond / 1000000
  let microsecond : Nat := timestamp_microsecond % 1000000
  if 86400 ≤ second then Except.error ParseError.timeTooLarge
  else Except.ok ⟨second / 3600, second % 3600 / 60, second % 60, microsecond⟩

/-- `const MAX_U32: i64 = u32::MAX as i64` (`src/input/datetime.rs`
line 307). -/
def MAX_U32 : Int := 4294967295

def time_negative_msg : String := "time in seconds must be positive"

/-- `int_as_time` from `src/input/datetime.rs` lines 309-337: negative
timestamps are rejected immediately; timestamps above `u32::MAX` are
clamped to `u32::MAX` before calling the canonical range checker. -/
def int_as_time (timestamp : Int) (timestamp_microseconds : Nat) : Except ValErr Time :=
  if timestamp < 0 then
    Except.error (valErrNew (ErrKind.timeParsing time_negative_msg))
  else
    let time_timestamp : Nat := if timestamp > MAX_U32 then 4294967295 else timestamp.toNat
    match Time.from_timestamp time_timestamp timestamp_microseconds with
    | Except.ok t => Except.ok t
    | Except.error e => Except.error (valErrNew (ErrKind.timeParsing e.get_documentation))

/-! ### Exact-rational model of the `f64` operations -/

/-- Rust `f64::fract` is `self - self.trunc`: truncation toward zero. -/
def ftrunc (x : ℚ) : Int :=
  if 0 ≤ x then ⌊x⌋ else ⌈x⌉

/-- Rust `f64::fract()`: the fractional part, with the sign of `x`. -/
def ffract (x : ℚ) : ℚ :=
  x - (ftrunc x : ℚ)

/-- Rust `f64::floor()`. -/
def ffloor (x : ℚ) : Int :=
  ⌊x⌋

/-- Rust `f64::round()`: rounds half away from zero. -/
def fround (x : ℚ) : Int :=
  if 0 ≤ x then ⌊x + 1 / 2⌋ else ⌈x - 1 / 2⌉

/-- Rust `f64::signum()`: `1` for non-negative values (including
positive zero), `-1` for negative values. -/
def fsignum (x : ℚ) : Int :=
  if 0 ≤ x then 1 else -1

/-- Rust `as u32` on a float-derived integer value: a saturating cast. -/
def u32_of_int (n : Int) : Nat :=
  if n < 0 then 0 else min n.toNat 4294967295

/-- The float-to-timestamp split shared by `float_as_datetime`
(`src/input/datetime.rs` lines 284-289) and `float_as_time` (lines
339-343): `whole = value.floor()`, and the microseconds are
`(value.fract().abs() * 1_000_000.0).round()`. -/
def floatSplit (timestamp : ℚ) : Int × Nat :=
  let microseconds : ℚ := |ffract timestamp| * 1000000
  (ffloor timestamp, u32_of_int (fround microseconds))

/-- `float_as_time` from `src/input/datetime.rs` lines 339-343. -/
def float_as_time (timestamp : ℚ) : Except ValErr Time :=
  int_as_time (floatSplit timestamp).1 (floatSplit timestamp).2

/-- `float_as_timedelta` from `src/input/datetime.rs` lines 375-392
(its two `println!` debug lines have no effect on the returned value and
are not modelled). -/
def float_as_timedelta (total_seconds : ℚ) : Except ValErr Duration :=
  let microseconds : Int := fround (|ffract total_seconds| * 1000000)
  match int_as_duration (ffloor total_seconds) (fsignum total_seconds * microseconds) with
  | Except.ok duration => Except.ok duration
  | Except.error e => Except.error (valErrNew (ErrKind.timeDeltaParsing e.get_documentation))

/-! ### Fixed-offset timezone string (`TzInfo::__str__`,
`src/input/datetime.rs` lines 423-430) -/

def utc_str : String := "UTC"

def colon_str : String := ":"

def plus_str : String := "+"

def minus_str : String := "-"

def zero_str : String := "0"

/-- Rust `i32` division truncates toward zero (both divisors used here
are positive). -/
def div_trunc (a : Int) (b : Nat) : Int :=
  if 0 ≤ a then ((a.toNat / b : Nat) : Int) else -((a.natAbs / b : Nat) : Int)

/-- Two-digit zero-padded decimal rendering (`{:02}`). -/
def pad2 (n : Nat) : String :=
  if n < 10 then zero_str ++ Nat.repr n else Nat.repr n

/-- Rust `{:+03}`: always-signed rendering, zero-padded to two digits
after the sign. -/
def fmt_plus03 (h : Int) : String :=
  (if h < 0 then minus_str else plus_str) ++ pad2 h.natAbs

/-- `TzInfo::__str__` from `src/input/datetime.rs` lines 423-430:
`UTC` for a zero offset, otherwise
`format!("{:+03}:{:02}", mins / 60, (mins % 60).abs())` with
`mins = seconds / 60`.  `(mins % 60).abs()` equals `|mins| % 60` since
Rust `%` keeps the dividend's sign. -/
def TzInfo_str (seconds : Int) : String :=
  if seconds = 0 then utc_str
  else
    let mins : Int := div_trunc seconds 60
    fmt_plus03 (div_trunc mins 60) ++ colon_str ++ pad2 (mins.natAbs % 60)

/-! ## Mapping (dict) validator (`src/validators/dict.rs`)

Keys and values of the input mapping, and the normalized keys and
values produced by the child validators, are modelled as `Nat`; child
validators are arbitrary functions into `Except ValErr Nat`.  The
`strict` flag only selects how the generic mapping view is extracted
from the input (upstream of the core algorithm) and is not modelled. -/

/-- The built mapping validator: a key validator, a value validator and
optional length bounds (`DictValidator`, lines 12-19). -/
structure DictValidator where
  key_validator : Nat → Except ValErr Nat
  value_validator : Nat → Except ValErr Nat
  min_items : Option Nat
  max_items : Option Nat

def keyMarker : String := "[key]"

/-- `PyDict::set_item`: overwriting an existing key keeps its original
position and updates the value; a fresh key is appended. -/
def set_item (output : List (Nat × Nat)) (key value : Nat) : List (Nat × Nat) :=
  if output.any (fun p => p.1 == key) then
    output.map (fun p => if p.1 == key then (key, value) else p)
  else
    output ++ [(key, value)]

/-- The key-validator step for one entry (lines 111-124): on success the
normalized key is kept; on recoverable errors each line error is pushed
with the literal key marker first and then the key itself
(`err.with_outer_location("[key]".into()).with_outer_location(key.as_loc_item())`),
and no output key is produced; a fatal error propagates. -/
def validate_key (dv : DictValidator) (key : Nat) (errors : List LineErr) :
    Except ValErr (Option Nat × List LineErr) :=
  match dv.key_validator key with
  | Except.ok value => Except.ok (some value, errors)
  | Except.error (ValErr.lineErrors line_errors) =>
    Except.ok (none, errors ++ line_errors.map (fun e =>
      withOuterLocation (LocItem.i key) (withOuterLocation (LocItem.s keyMarker) e)))
  | Except.error (ValErr.fatal tag) => Except.error (ValErr.fatal tag)

/-- The value-validator step for one entry (lines 125-134): recoverable
errors are recorded under the original key alone. -/
def validate_value (dv : DictValidator) (key value : Nat) (errors : List LineErr) :
    Except ValErr (Option Nat × List LineErr) :=
  match dv.value_validator value with
  | Except.ok v => Except.ok (some v, errors)
  | Except.error (ValErr.lineErrors line_errors) =>
    Except.ok (none, errors ++ line_errors.map (fun e => withOuterLocation (LocItem.i key) e))
  | Except.error (ValErr.fatal tag) => Except.error (ValErr.fatal tag)

/-- The per-entry loop of `build_validate!` (lines 110-138): each entry
runs the key step then the value step, and inserts into the output only
when both produced a value. -/
def validate_entries (dv : DictValidator) :
    List (Nat × Nat) → List (Nat × Nat) → List LineErr →
      Except ValErr (List (Nat × Nat) × List LineErr)
  | [], output, errors => Except.ok (output, errors)
  | (key, value) :: rest, output, errors =>
    match validate_key dv key errors with
    | Except.error e => Except.error e
    | Except.ok (output_key, errors1) =>
      match validate_value dv key value errors1 with
      | Except.error e => Except.error e
      | Except.ok (output_value, errors2) =>
        match output_key, output_value with
        | some k, some v => validate_entries dv rest (set_item output k v) errors2
        | _, _ => validate_entries dv rest output errors2

/-- Lines 104-144: run the entry loop from an empty output and no
errors; return the aggregated line errors when any were recorded,
discarding the partially built output, and the output otherwise. -/
def validate_dict_entries (dv : DictValidator) (input : List (Nat × Nat)) :
    Except ValErr (List (Nat × Nat)) :=
  match validate_entries dv input [] [] with
  | Except.error e => Except.error e
  | Except.ok (output, []) => Except.ok output
  | Except.ok (_, e :: es) => Except.error (ValErr.lineErrors (e :: es))

/-- `build_validate!` (lines 93-145): the `min_items` check, then the
`max_items` check, then the per-entry loop. -/
def validate_dict (dv : DictValidator) (input : List (Nat × Nat)) :
    Except ValErr (List (Nat × Nat)) :=
  match dv.min_items with
  | some min_length =>
    if input.length < min_length then
      Except.error (valErrNew (ErrKind.tooShort min_length))
    else
      match dv.max_items with
      | some max_length =>
        if input.length > max_length then
          Except.error (valErrNew (ErrKind.tooLong max_length))
        else validate_dict_entries dv input
      | none => validate_dict_entries dv input
  | none =>
    match dv.max_items with
    | some max_length =>
      if input.length > max_length then
        Except.error (valErrNew (ErrKind.tooLong max_length))
      else validate_dict_entries dv input
    | none => validate_dict_entries dv input

/-! ### Specification helpers for the dict validator -/

/-- Whether a child-validator result is recoverable (not fatal). -/
def recoverable_result : Except ValErr Nat → Bool
  | Except.error (ValErr.fatal _) => false
  | _ => true

/-- Neither child validator reports a fatal error on this entry. -/
def no_fatal_entry (dv : DictValidator) (p : Nat × Nat) : Bool :=
  recoverable_result (dv.key_validator p.1) && recoverable_result (dv.value_validator p.2)

/-- Each child failure on this entry carries exactly one line error. -/
def single_error_entry (dv : DictValidator) (p : Nat × Nat) : Bool :=
  (match dv.key_validator p.1 with
   | Except.error (ValErr.lineErrors es) => es.length == 1
   | _ => true) &&
  (match dv.value_validator p.2 with
   | Except.error (ValErr.lineErrors es) => es.length == 1
   | _ => true)

/-- The key validator fails on this entry. -/
def key_fails (dv : DictValidator) (p : Nat × Nat) : Bool :=
  match dv.key_validator p.1 with
  | Except.ok _ => false
  | _ => true

/-- The value validator fails on this entry. -/
def value_fails (dv : DictValidator) (p : Nat × Nat) : Bool :=
  match dv.value_validator p.2 with
  | Except.ok _ => false
  | _ => true

/-- Both child validators succeed on this entry. -/
def entry_valid (dv : DictValidator) (p : Nat × Nat) : Bool :=
  !key_fails dv p && !value_fails dv p

/-- The line errors one entry contributes: key-validator errors located
at `[key, "[key]"]` followed by value-validator errors located at
`[key]`. -/
def entry_errors (dv : DictValidator) (p : Nat × Nat) : List LineErr :=
  (match dv.key_validator p.1 with
   | Except.error (ValErr.lineErrors es) => es.map (fun e =>
      withOuterLocation (LocItem.i p.1) (withOuterLocation (LocItem.s keyMarker) e))
   | _ => []) ++
  (match dv.value_validator p.2 with
   | Except.error (ValErr.lineErrors es) => es.map (fun e => withOuterLocation (LocItem.i p.1) e)
   | _ => [])

/-- All line errors collected over the whole input, in input order. -/
def dict_errors (dv : DictValidator) (input : List (Nat × Nat)) : List LineErr :=
  input.flatMap (entry_errors dv)

/-- The output mapping built from the entries on which both child
validators succeed. -/
def ok_output (dv : DictValidator) : List (Nat × Nat) → List (Nat × Nat) → List (Nat × Nat)
  | [], output => output
  | (key, value) :: rest, output =>
    match dv.key_validator key, dv.value_validator value with
    | Except.ok k, Except.ok v => ok_output dv rest (set_item output k v)
    | _, _ => ok_output dv rest output

/-- The normalized key a (valid) entry maps to. -/
def norm_key (dv : DictValidator) (p : Nat × Nat) : Nat :=
  match dv.key_validator p.1 with
  | Except.ok k => k
  | _ => 0

/-- The normalized pair a (valid) entry maps to. -/
def norm_pair (dv : DictValidator) (p : Nat × Nat) : Nat × Nat :=
  (norm_key dv p,
   match dv.value_validator p.2 with
   | Except.ok v => v
   | _ => 0)

/-- The length bounds accept this input. -/
def bounds_ok (dv : DictValidator) (input : List (Nat × Nat)) : Bool :=
  (match dv.min_items with
   | some min_length => decide (min_length ≤ input.length)
   | none => true) &&
  (match dv.max_items with
   | some max_length => decide (input.length ≤ max_length)
   | none => true)

/-! ## Serializer fallback policy
(`src/serializers/type_serializers/timedelta.rs`,
`src/serializers/type_serializers/typed_dict.rs`)

Runtime host values are modelled by `PValue`; the `cast_as::<PyDelta>`
and `cast_as::<PyDict>` probes succeed exactly on the corresponding
constructors.  The warnings collector is modelled as the list of
recorded diagnostics, threaded in and out of each entry point.
Configuration-dependent serialization of a matched value
(`timedelta_mode.*`) and the declared-field loop of the typed-dict
serializer (which relies on the `SchemaFilter` machinery outside the
provided sources) are taken as parameters. -/

/-- A runtime host value: a native timedelta, a native dict, or any
other object. -/
inductive PValue where
  | delta (d : Duration)
  | dict (entries : List (String × PValue))
  | int (n : Int)

/-- Serialization mode carried by `Extra` (`SerMode`): JSON-oriented or
native-output. -/
inductive SerMode where
  | json
  | python

def is_timedelta : PValue → Bool
  | PValue.delta _ => true
  | _ => false

def is_dict : PValue → Bool
  | PValue.dict _ => true
  | _ => false

def timedelta_expected : String := "timedelta"

def typed_dict_expected : String := "typed-dict"

/-- Modelled from the spec: the warnings collector records a fallback
diagnostic naming the serializer's expected type
(`fallback_slow` / `fallback_filtering`). -/
def record_fallback (warnings : List String) (expected_type : String) : List String :=
  warnings ++ [expected_type]

/-- Modelled from the spec: the generic, representation-agnostic
fallback serialization path (`fallback_to_python` in the any
serializer); it always succeeds, serializing the value as itself. -/
def fallback_to_python (value : PValue) : PValue := value

/-- Modelled from the spec: the generic fallback for the incremental
(serde) serialization path (`fallback_serialize`). -/
def fallback_serialize (value : PValue) : PValue := value

def fallback_key_str : String := "fallback-key"

/-- Modelled from the spec: the generic fallback for rendering a value
as a mapping key (`fallback_json_key`); it always succeeds. -/
def fallback_json_key (value : PValue) : String :=
  match value with
  | PValue.int n => Int.repr n
  | _ => fallback_key_str

/-- `TimeDeltaSerializer::to_python` (timedelta.rs lines 27-44): in JSON
mode a timedelta is serialized via the configured timedelta mode, any
other value goes through the fallback path with a recorded diagnostic;
in any other mode every value goes through the fallback path. -/
def timedelta_to_python (timedelta_to_json : Duration → PValue) (mode : SerMode)
    (value : PValue) (warnings : List String) : PValue × List String :=
  match mode with
  | SerMode.json =>
    match value with
    | PValue.delta d => (timedelta_to_json d, warnings)
    | _ => (fallback_to_python value, record_fallback warnings timedelta_expected)
  | _ => (fallback_to_python value, warnings)

/-- `TimeDeltaSerializer::json_key` (timedelta.rs lines 46-54). -/
def timedelta_json_key (duration_json_key : Duration → String)
    (key : PValue) (warnings : List String) : String × List String :=
  match key with
  | PValue.delta d => (duration_json_key d, warnings)
  | _ => (fallback_json_key key, record_fallback warnings timedelta_expected)

/-- `TimeDeltaSerializer::serde_serialize` (timedelta.rs lines 56-74). -/
def timedelta_serde_serialize (duration_serialize : Duration → PValue)
    (value : PValue) (warnings : List String) : PValue × List String :=
  match value with
  | PValue.delta d => (duration_serialize d, warnings)
  | _ => (fallback_serialize value, record_fallback warnings timedelta_expected)

/-- `TypedDictSerializer::to_python` (typed_dict.rs lines 136-178): a
dict input is serialized by the declared-field loop (abstracted as
`dict_branch`); any other value goes through the fallback path with a
recorded diagnostic. -/
def typed_dict_to_python
    (dict_branch : List (String × PValue) → List String → PValue × List String)
    (value : PValue) (warnings : List String) : PValue × List String :=
  match value with
  | PValue.dict entries => dict_branch entries warnings
  | _ => (fallback_to_python value, record_fallback warnings typed_dict_expected)

/-- `TypedDictSerializer::serde_serialize` (typed_dict.rs lines
180-236). -/
def typed_dict_serde_serialize
    (dict_branch : List (String × PValue) → List String → PValue × List String)
    (value : PValue) (warnings : List String) : PValue × List String :=
  match value with
  | PValue.dict entries => dict_branch entries warnings
  | _ => (fallback_serialize value, record_fallback warnings typed_dict_expected)

/-! ## Theorems -/

/-- C2: the native-to-raw conversion of a host timedelta.  The input
`days = -2, seconds = 86399, microseconds = 877000` is exactly the
example in the code's own comment (`timedelta(seconds=-86400 - 0.123)`),
which the comment says must convert to `Duration::new(false, 1, 0,
123000)`; instead `int_as_duration(-86401, 877000)` hits the
sign-mismatch check, so the `.unwrap()` in `pytimedelta_as_timedelta`
panics — the conversion is not total, let alone lossless.  The second
conjunct records the magnitude of the comment's expected result. -/
theorem pytimedelta_negative_fraction_panics :
    pytimedelta_as_timedelta (-2) 86399 877000 = Except.error ParseError.tooShort ∧
    total_micros (Duration.new false 1 0 123000) = 86400 * 1000000 + 123000 :=
  ⟨rfl, rfl⟩

/-- C3 (amended): `int_as_duration` fails exactly on nonzero inputs with
disagreeing signs; otherwise the sign is taken from `seconds`
(non-negative when `seconds = 0`) and the duration is stored as an
unsigned day count, unsigned second-of-day remainder, and the
microsecond magnitude reduced modulo `2 ^ 32` by the `as u32` cast;
re-expanding to total microseconds reproduces the input magnitude
exactly whenever additionally `|microseconds| < 2 ^ 32`. -/
theorem int_as_duration_normalization (seconds microseconds : Int) :
    (int_as_duration seconds microseconds = Except.error ParseError.tooShort ↔
      seconds ≠ 0 ∧ microseconds ≠ 0 ∧ seconds.sign ≠ microseconds.sign) ∧
    (¬(seconds ≠ 0 ∧ microseconds ≠ 0 ∧ seconds.sign ≠ microseconds.sign) →
      int_as_duration seconds microseconds =
        Except.ok (Duration.new (decide (0 ≤ seconds)) (seconds.natAbs / 86400)
          (seconds.natAbs % 86400) (microseconds.natAbs % 4294967296)) ∧
      (microseconds.natAbs < 4294967296 →
        total_micros (Duration.new (decide (0 ≤ seconds)) (seconds.natAbs / 86400)
          (seconds.natAbs % 86400) (microseconds.natAbs % 4294967296)) =
          seconds.natAbs * 1000000 + microseconds.natAbs)) := by
  constructor
  · unfold int_as_duration
    split
    · simp_all
    · simp_all
  · intro h
    unfold int_as_duration
    rw [if_neg h]
    refine ⟨rfl, fun hmic => ?_⟩
    unfold total_micros Duration.new
    simp only
    rw [Nat.mod_eq_of_lt hmic]
    omega

/-- C3 witness: `int_as_duration (-86401) (-123000)` (matching negative
signs) stores sign `false`, 1 day, 1 second, 123000 microseconds, and
re-expands to the exact input magnitude. -/
theorem int_as_duration_normalization_witness :
    int_as_duration (-86401) (-123000) = Except.ok (Duration.new false 1 1 123000) ∧
    total_micros (Duration.new false 1 1 123000) = 86401 * 1000000 + 123000 := by
  have h := (int_as_duration_normalization (-86401) (-123000)).2 (by decide)
  exact ⟨h.1.trans rfl, by decide⟩

/-- C3 counterexample: at `seconds = 1`, `microseconds = 2 ^ 32` (both
positive, so the signs agree), the `as u32` cast truncates the
microsecond magnitude to zero and re-expansion does not reproduce the
input magnitude, contradicting the unrestricted round-trip claim. -/
theorem int_as_duration_truncation_cex :
    int_as_duration 1 4294967296 = Except.ok (Duration.new true 0 1 0) ∧
    total_micros (Duration.new true 0 1 0) ≠
      (1 : Int).natAbs * 1000000 + (4294967296 : Int).natAbs :=
  ⟨rfl, by decide⟩

/-- C5: `int_as_time` rejects every negative timestamp immediately with
the time-parsing error; any timestamp above `u32::MAX` is clamped to
`u32::MAX` before the canonical range checker runs (so the call is
indistinguishable from calling with `u32::MAX`); and
`int_as_time 86399 999999` succeeds with a time whose
hour/minute/second re-expand to 86399 seconds and whose microsecond is
999999. -/
theorem int_as_time_spec (timestamp : Int) (micros : Nat) :
    (timestamp < 0 →
      int_as_time timestamp micros =
        Except.error (valErrNew (ErrKind.timeParsing time_negative_msg))) ∧
    (MAX_U32 < timestamp → int_as_time timestamp micros = int_as_time MAX_U32 micros) ∧
    (∃ t, int_as_time 86399 999999 = Except.ok t ∧
      t.hour * 3600 + t.minute * 60 + t.second = 86399 ∧ t.microsecond = 999999) := by
  refine ⟨fun hneg => ?_, fun hbig => ?_, ⟨⟨23, 59, 59, 999999⟩, rfl, rfl, rfl⟩⟩
  · unfold int_as_time
    rw [if_pos hneg]
  · have hbig' : (4294967295 : Int) < timestamp := hbig
    have hneg1 : ¬timestamp < 0 := by omega
    have hneg2 : ¬MAX_U32 < (0 : Int) := by decide
    have hgt : timestamp > MAX_U32 := hbig
    have hgt2 : ¬MAX_U32 > MAX_U32 := lt_irrefl MAX_U32
    have htn : MAX_U32.toNat = 4294967295 := rfl
    unfold int_as_time
    rw [if_neg hneg1, if_neg hneg2, if_pos hgt, if_neg hgt2, htn]

/-- C5 witness: the rejection at `-1` and the clamping at
`u32::MAX + 1`, instantiated from `int_as_time_spec`. -/
theorem int_as_time_spec_witness :
    int_as_time (-1) 0 = Except.error (valErrNew (ErrKind.timeParsing time_negative_msg)) ∧
    int_as_time 4294967296 7 = int_as_time MAX_U32 7 :=
  ⟨(int_as_time_spec (-1) 0).1 (by decide), (int_as_time_spec 4294967296 7).2.1 (by decide)⟩

def cex_duration_json (_ : Duration) : PValue := PValue.int 0

def cex_duration_key (_ : Duration) : String := fallback_key_str

def cex_dict_branch (_ : List (String × PValue)) (warnings : List String) :
    PValue × List String :=
  (PValue.int 0, warnings)

/-- C6 counterexample: `TimeDeltaSerializer::to_python` in non-JSON
(python) mode is a serialization entry point and mode in which a
mismatched value (here a non-timedelta) is serialized without any
fallback diagnostic being recorded: the warnings collector stays empty,
contradicting the claim that every entry point and mode records one. -/
theorem timedelta_python_mode_no_warning_cex :
    is_timedelta (PValue.int 7) = false ∧
    (timedelta_to_python cex_duration_json SerMode.python (PValue.int 7) []).2 = [] :=
  ⟨rfl, rfl⟩

/-- C6 (amended): in every serialization entry point and mode except
`TimeDeltaSerializer::to_python` in non-JSON mode, a value that does not
match the statically expected representation records exactly one
fallback diagnostic via the warnings collector and is serialized through
the generic fallback path, returning a result rather than failing; in
non-JSON mode the timedelta serializer's `to_python` sends every value
through the generic path without recording a diagnostic. -/
theorem serializer_fallback_policy (timedelta_to_json : Duration → PValue)
    (duration_json_key : Duration → String) (duration_serialize : Duration → PValue)
    (dict_branch_py dict_branch_serde : List (String × PValue) → List String → PValue × List String)
    (value : PValue) (warnings : List String) :
    (is_timedelta value = false →
      timedelta_to_python timedelta_to_json SerMode.json value warnings =
        (fallback_to_python value, record_fallback warnings timedelta_expected) ∧
      timedelta_json_key duration_json_key value warnings =
        (fallback_json_key value, record_fallback warnings timedelta_expected) ∧
      timedelta_serde_serialize duration_serialize value warnings =
        (fallback_serialize value, record_fallback warnings timedelta_expected) ∧
      timedelta_to_python timedelta_to_json SerMode.python value warnings =
        (fallback_to_python value, warnings)) ∧
    (is_dict value = false →
      typed_dict_to_python dict_branch_py value warnings =
        (fallback_to_python value, record_fallback warnings typed_dict_expected) ∧
      typed_dict_serde_serialize dict_branch_serde value warnings =
        (fallback_serialize value, record_fallback warnings typed_dict_expected)) := by
  cases value <;>
    simp [is_timedelta, is_dict, timedelta_to_python, timedelta_json_key,
      timedelta_serde_serialize, typed_dict_to_python, typed_dict_serde_serialize]

/-- C6 witness: the fallback policy instantiated at the non-timedelta,
non-dict value `7` with an empty warnings collector: the JSON-mode
timedelta entry point and the typed-dict entry point both record the
diagnostic and return the fallback serialization. -/
theorem serializer_fallback_policy_witness :
    timedelta_to_python cex_duration_json SerMode.json (PValue.int 7) [] =
      (fallback_to_python (PValue.int 7), record_fallback [] timedelta_expected) ∧
    typed_dict_to_python cex_dict_branch (PValue.int 7) [] =
      (fallback_to_python (PValue.int 7), record_fallback [] typed_dict_expected) := by
  have h := serializer_fallback_policy cex_duration_json cex_duration_key cex_duration_json
    cex_dict_branch cex_dict_branch (PValue.int 7) []
  exact ⟨(h.1 rfl).1, (h.2 rfl).1⟩

theorem natAbs_div_trunc (a : Int) (b : Nat) : (div_trunc a b).natAbs = a.natAbs / b := by
  unfold div_trunc
  split
  · have h : a.toNat = a.natAbs := by omega
    rw [h]
    generalize a.natAbs / b = k
    omega
  · generalize a.natAbs / b = k
    omega

theorem div_trunc_neg_iff (a : Int) (b : Nat) (hb : 0 < b) :
    div_trunc a b < 0 ↔ a < 0 ∧ b ≤ a.natAbs := by
  unfold div_trunc
  split
  · constructor
    · intro hlt
      exact absurd hlt (by generalize a.toNat / b = k; omega)
    · intro ⟨ha, _⟩
      omega
  · have hdiv : 0 < a.natAbs / b ↔ b ≤ a.natAbs := Nat.div_pos_iff (by omega)
    generalize hk : a.natAbs / b = k at hdiv ⊢
    constructor
    · intro hlt
      exact ⟨by omega, hdiv.mp (by omega)⟩
    · intro ⟨_, hba⟩
      have hpos : 0 < k := hdiv.mpr hba
      omega

/-- C8 (amended): the fixed-offset timezone string is `UTC` for a zero
offset; otherwise it is a signed `HH:MM` string computed from the whole
minutes of the offset, where the rendered sign is the sign of the
truncated hours quotient `mins / 60` — so nonzero negative offsets
smaller than one hour render with a `+` sign — the hour magnitude is
`|offset| / 3600` and the minute magnitude is `|offset| / 60 % 60`. -/
theorem tzinfo_str_spec (seconds : Int) :
    (seconds = 0 → TzInfo_str seconds = utc_str) ∧
    (seconds ≠ 0 → TzInfo_str seconds =
      (if seconds ≤ -3600 then minus_str else plus_str) ++
        pad2 (seconds.natAbs / 3600) ++ colon_str ++ pad2 (seconds.natAbs / 60 % 60)) := by
  constructor
  · intro h
    unfold TzInfo_str
    rw [if_pos h]
  · intro h
    simp only [TzInfo_str, fmt_plus03]
    rw [if_neg h]
    have hiff : div_trunc (div_trunc seconds 60) 60 < 0 ↔ seconds ≤ -3600 := by
      rw [div_trunc_neg_iff _ _ (by norm_num), div_trunc_neg_iff _ _ (by norm_num),
        natAbs_div_trunc]
      constructor
      · intro ⟨⟨hs, h60⟩, h3600⟩
        omega
      · intro hs
        exact ⟨⟨by omega, by omega⟩, by omega⟩
    rw [if_congr hiff rfl rfl, natAbs_div_trunc, natAbs_div_trunc, Nat.div_div_eq_div_mul]

/-- C8 counterexample: the offset `-1800` seconds (minus thirty
minutes) is negative, yet its string form is `+00:30` — the rendered
sign comes from the truncated hours quotient (zero here), not from the
offset, contradicting the claim that the string is correctly signed for
every nonzero offset including negative offsets smaller than one
hour. -/
theorem tzinfo_negative_small_offset_cex :
    TzInfo_str (-1800) = "+00:30" ∧ (-1800 : Int) < 0 :=
  ⟨rfl, by decide⟩

/-- C8 witness: the offset `3661` seconds renders as `+01:01`,
instantiated from `tzinfo_str_spec`. -/
theorem tzinfo_str_spec_witness : TzInfo_str 3661 = "+01:01" ∧ TzInfo_str 0 = utc_str := by
  refine ⟨?_, (tzinfo_str_spec 0).1 rfl⟩
  have h := (tzinfo_str_spec 3661).2 (by decide)
  rw [h]
  rfl

/-- C7: the float-to-timestamp split computes the whole part with
`floor` and the microseconds by rounding `|fract| * 1_000_000` to the
nearest integer (ties away from zero, hence to the larger magnitude),
not by truncating: on the exact value of the float literal `2.0000005`
the split yields whole `2` and microseconds `1` (truncation would yield
`0`), and `float_as_time` on it produces the time `00:00:02.000001`. -/
theorem float_split_rounds :
    floatSplit (4000001 / 2000000 : ℚ) = (2, 1) ∧
    ftrunc (|ffract (4000001 / 2000000 : ℚ)| * 1000000) = 0 ∧
    float_as_time (4000001 / 2000000 : ℚ) = Except.ok ⟨0, 0, 2, 1⟩ := by
  have hfl : ffloor (4000001 / 2000000 : ℚ) = 2 := by
    unfold ffloor
    norm_num [Int.floor_eq_iff]
  have htrx : ftrunc (4000001 / 2000000 : ℚ) = 2 := by
    unfold ftrunc
    rw [if_pos (by norm_num)]
    norm_num [Int.floor_eq_iff]
  have hfr : ffract (4000001 / 2000000 : ℚ) = 1 / 2000000 := by
    unfold ffract
    rw [htrx]
    norm_num
  have habs : |ffract (4000001 / 2000000 : ℚ)| * 1000000 = 1 / 2 := by
    rw [hfr, abs_of_pos (by norm_num)]
    norm_num
  have hro : fround (|ffract (4000001 / 2000000 : ℚ)| * 1000000) = 1 := by
    rw [habs]
    unfold fround
    rw [if_pos (by norm_num)]
    norm_num [Int.floor_eq_iff]
  have htr0 : ftrunc (|ffract (4000001 / 2000000 : ℚ)| * 1000000) = 0 := by
    rw [habs]
    unfold ftrunc
    rw [if_pos (by norm_num)]
    norm_num [Int.floor_eq_iff]
  have hsplit : floatSplit (4000001 / 2000000 : ℚ) = (2, 1) := by
    simp only [floatSplit]
    rw [hfl, hro]
    rfl
  refine ⟨hsplit, htr0, ?_⟩
  unfold float_as_time
  rw [hsplit]
  rfl

/-- C10: on every negative non-integer input, `float_as_timedelta`
combines `floor` (which moves away from zero for negatives) with a
microsecond part of `signum * round(|fract| * 1_000_000)`, so it
succeeds with a negative duration whose total magnitude in microseconds
is `|floor x| * 1_000_000 + round(|fract x| * 1_000_000)` — strictly
larger than, hence different from, `|x| * 1_000_000`. -/
theorem float_as_timedelta_negative (x : ℚ) (hneg : x < 0) (hden : x.den ≠ 1) :
    ∃ d, float_as_timedelta x = Except.ok d ∧
      d.positive = false ∧
      total_micros d = (ffloor x).natAbs * 1000000 + (fround (|ffract x| * 1000000)).toNat ∧
      ((total_micros d : ℚ) ≠ |x| * 1000000) := by
  have hnint : ∀ n : ℤ, x ≠ (n : ℚ) := by
    intro n hn
    apply hden
    rw [hn, Rat.den_intCast]
  have hfr_pos : 0 < Int.fract x := Int.fract_pos.mpr (hnint ⌊x⌋)
  have hfract_def : x - (⌊x⌋ : ℚ) = Int.fract x := Int.self_sub_floor x
  have hfloor_lt : (⌊x⌋ : ℚ) < x := by linarith [hfr_pos, hfract_def]
  have hfloor_neg : ⌊x⌋ < 0 := by
    have hx0 : x < ((0 : Int) : ℚ) := by exact_mod_cast hneg
    exact Int.floor_lt.mpr hx0
  have hceil_gt : (⌊x⌋ : Int) < ⌈x⌉ := by
    have h2 : x ≤ (⌈x⌉ : ℚ) := Int.le_ceil x
    exact_mod_cast lt_of_lt_of_le hfloor_lt h2
  have htr : ftrunc x = ⌈x⌉ := if_neg (not_le.mpr hneg)
  have hsub_neg : x - (⌈x⌉ : ℚ) < 0 := by
    have h2 : x ≤ (⌈x⌉ : ℚ) := Int.le_ceil x
    have h3 : x ≠ (⌈x⌉ : ℚ) := hnint ⌈x⌉
    have h4 : x < (⌈x⌉ : ℚ) := lt_of_le_of_ne h2 h3
    linarith
  have hffr : ffract x = x - (⌈x⌉ : ℚ) := by
    unfold ffract
    rw [htr]
  have habs : |ffract x| = (⌈x⌉ : ℚ) - x := by
    rw [hffr, abs_of_neg hsub_neg]
    ring
  have hq_nonneg : (0 : ℚ) ≤ |ffract x| * 1000000 := by positivity
  have hq_lt : |ffract x| * 1000000 < 1000000 := by
    rw [habs]
    have h1 : (⌈x⌉ : ℚ) - x < 1 := by
      have := Int.ceil_lt_add_one x
      linarith
    nlinarith
  have hmu_nonneg : 0 ≤ fround (|ffract x| * 1000000) := by
    unfold fround
    rw [if_pos hq_nonneg]
    apply Int.le_floor.mpr
    push_cast
    linarith
  have hmu_le : fround (|ffract x| * 1000000) ≤ 1000000 := by
    unfold fround
    rw [if_pos hq_nonneg]
    have hlt : |ffract x| * 1000000 + 1 / 2 < (((1000001 : Int) : ℚ)) := by
      push_cast
      linarith
    have := Int.floor_lt.mpr hlt
    omega
  have hsig : fsignum x = -1 := if_neg (not_le.mpr hneg)
  set mu : Int := fround (|ffract x| * 1000000) with hmu
  have hffloor_neg : ffloor x < 0 := hfloor_neg
  have hcond : ¬(ffloor x ≠ 0 ∧ fsignum x * mu ≠ 0 ∧ (ffloor x).sign ≠ (fsignum x * mu).sign) := by
    rw [hsig]
    intro ⟨h1, h2, h3⟩
    apply h3
    have hmu_pos : 0 < mu := by
      rcases lt_or_eq_of_le hmu_nonneg with h | h
      · exact h
      · exfalso
        apply h2
        rw [← h]
        ring
    have hsf : (ffloor x).sign = -1 := Int.sign_eq_neg_one_of_neg hffloor_neg
    have hsm : (-1 * mu).sign = -1 := Int.sign_eq_neg_one_of_neg (by omega)
    rw [hsf, hsm]
  have hdur : int_as_duration (ffloor x) (fsignum x * mu) =
      Except.ok (Duration.new (decide (0 ≤ ffloor x)) ((ffloor x).natAbs / 86400)
        ((ffloor x).natAbs % 86400) ((fsignum x * mu).natAbs % 4294967296)) := by
    unfold int_as_duration
    rw [if_neg hcond]
  have hposf : (decide (0 ≤ ffloor x)) = false := by
    simp only [decide_eq_false_iff_not, not_le]
    exact hffloor_neg
  have hmabs : (fsignum x * mu).natAbs % 4294967296 = mu.toNat := by
    rw [hsig]
    have h1 : (-1 * mu).natAbs = mu.toNat := by omega
    rw [h1, Nat.mod_eq_of_lt (by omega)]
  have heq : total_micros (Duration.new false ((ffloor x).natAbs / 86400)
      ((ffloor x).natAbs % 86400) mu.toNat) = (ffloor x).natAbs * 1000000 + mu.toNat := by
    unfold total_micros Duration.new
    simp only
    omega
  refine ⟨Duration.new false ((ffloor x).natAbs / 86400) ((ffloor x).natAbs % 86400) mu.toNat,
    ?_, rfl, by rw [heq], ?_⟩
  · simp only [float_as_timedelta]
    rw [← hmu, hdur, hposf, hmabs]
  · rw [heq]
    have hAq : ((ffloor x).natAbs : ℚ) = -((⌊x⌋ : Int) : ℚ) := by
      have h2 : ffloor x = ⌊x⌋ := rfl
      rw [h2, Int.cast_natAbs, abs_of_neg hfloor_neg]
      push_cast
      ring
    have habsx : |x| = -x := abs_of_neg hneg
    have htq : (0 : ℚ) ≤ (mu.toNat : ℚ) := by positivity
    have hgt : (((ffloor x).natAbs * 1000000 + mu.toNat : Nat) : ℚ) > |x| * 1000000 := by
      push_cast
      rw [habsx, hAq]
      linarith [hfr_pos, hfract_def]
    exact ne_of_gt hgt

/-- C10 witness: at the input `-0.5` (written as `Rat.divInt (-1) 2`),
`float_as_timedelta` produces a negative duration whose magnitude is
`|floor(-0.5)| * 1000000 + round(0.5 * 1000000) = 1500000`
microseconds (one and a half seconds), not `0.5` seconds. -/
theorem float_as_timedelta_negative_witness :
    ∃ d, float_as_timedelta (Rat.divInt (-1) 2) = Except.ok d ∧
      d.positive = false ∧
      total_micros d = (ffloor (Rat.divInt (-1) 2)).natAbs * 1000000 +
        (fround (|ffract (Rat.divInt (-1) 2)| * 1000000)).toNat ∧
      ((total_micros d : ℚ) ≠ |Rat.divInt (-1) 2| * 1000000) :=
  float_as_timedelta_negative (Rat.divInt (-1) 2) (by decide) (by decide)

theorem validate_entries_eq (dv : DictValidator) :
    ∀ (input output : List (Nat × Nat)) (errors : List LineErr),
      (∀ p ∈ input, no_fatal_entry dv p = true) →
      validate_entries dv input output errors =
        Except.ok (ok_output dv input output, errors ++ dict_errors dv input) := by
  intro input
  induction input with
  | nil =>
    intro output errors _
    simp [validate_entries, ok_output, dict_errors]
  | cons head rest ih =>
    intro output errors hf
    obtain ⟨key, value⟩ := head
    have hhead := hf (key, value) (by simp)
    have hrest : ∀ p ∈ rest, no_fatal_entry dv p = true := fun p hp => hf p (by simp [hp])
    cases hk : dv.key_validator key with
    | ok nk =>
      cases hv : dv.value_validator value with
      | ok nv =>
        simp [validate_entries, validate_key, validate_value, hk, hv, ok_output, dict_errors,
          entry_errors, ih _ _ hrest, List.append_assoc]
      | error e =>
        cases e with
        | lineErrors es =>
          simp [validate_entries, validate_key, validate_value, hk, hv, ok_output, dict_errors,
            entry_errors, ih _ _ hrest, List.append_assoc]
        | fatal t =>
          simp [no_fatal_entry, recoverable_result, hk, hv] at hhead
    | error e =>
      cases e with
      | lineErrors es =>
        cases hv : dv.value_validator value with
        | ok nv =>
          simp [validate_entries, validate_key, validate_value, hk, hv, ok_output, dict_errors,
            entry_errors, ih _ _ hrest, List.append_assoc]
        | error e2 =>
          cases e2 with
          | lineErrors es2 =>
            simp [validate_entries, validate_key, validate_value, hk, hv, ok_output, dict_errors,
              entry_errors, ih _ _ hrest, List.append_assoc]
          | fatal t =>
            simp [no_fatal_entry, recoverable_result, hk, hv] at hhead
      | fatal t =>
        simp [no_fatal_entry, recoverable_result, hk] at hhead

theorem validate_dict_bounds_pass (dv : DictValidator) (input : List (Nat × Nat))
    (hb : bounds_ok dv input = true) :
    validate_dict dv input = validate_dict_entries dv input := by
  unfold bounds_ok at hb
  simp only [Bool.and_eq_true] at hb
  obtain ⟨hb1, hb2⟩ := hb
  unfold validate_dict
  split
  · rename_i min_length heq
    rw [heq] at hb1
    simp at hb1
    rw [if_neg (by omega)]
    split
    · rename_i max_length heq2
      rw [heq2] at hb2
      simp at hb2
      rw [if_neg (by omega)]
    · rfl
  · split
    · rename_i max_length heq2
      rw [heq2] at hb2
      simp at hb2
      rw [if_neg (by omega)]
    · rfl

theorem dict_errors_length (dv : DictValidator) (input : List (Nat × Nat))
    (hf : ∀ p ∈ input, no_fatal_entry dv p = true)
    (hs : ∀ p ∈ input, single_error_entry dv p = true) :
    (dict_errors dv input).length =
      input.countP (key_fails dv) + input.countP (value_fails dv) := by
  induction input with
  | nil => simp [dict_errors]
  | cons head rest ih =>
    have h1 := hf head (by simp)
    have h2 := hs head (by simp)
    have ih' := ih (fun p hp => hf p (by simp [hp])) (fun p hp => hs p (by simp [hp]))
    have hlen : (entry_errors dv head).length =
        (if key_fails dv head = true then 1 else 0) +
          (if value_fails dv head = true then 1 else 0) := by
      unfold entry_errors key_fails value_fails
      cases hk : dv.key_validator head.1 with
      | ok nk =>
        cases hv : dv.value_validator head.2 with
        | ok nv => simp [hk, hv]
        | error e =>
          cases e with
          | lineErrors es =>
            have hes : es.length = 1 := by
              simp [single_error_entry, hk, hv] at h2
              exact h2
            simp [hk, hv, hes]
          | fatal t => simp [no_fatal_entry, recoverable_result, hk, hv] at h1
      | error e =>
        cases e with
        | lineErrors es =>
          cases hv : dv.value_validator head.2 with
          | ok nv =>
            have hes : es.length = 1 := by
              simp [single_error_entry, hk, hv] at h2
              exact h2
            simp [hk, hv, hes]
          | error e2 =>
            cases e2 with
            | lineErrors es2 =>
              have hboth := h2
              simp [single_error_entry, hk, hv] at hboth
              simp [hk, hv, hboth.1, hboth.2]
            | fatal t => simp [no_fatal_entry, recoverable_result, hk, hv] at h1
        | fatal t => simp [no_fatal_entry, recoverable_result, hk] at h1
    rw [dict_errors] at ih'
    rw [dict_errors, List.flatMap_cons, List.length_append, List.countP_cons, List.countP_cons,
      hlen, ih']
    omega

theorem set_item_fresh (output : List (Nat × Nat)) (key value : Nat)
    (h : key ∉ output.map Prod.fst) : set_item output key value = output ++ [(key, value)] := by
  unfold set_item
  have hc : ¬(output.any (fun p => p.1 == key) = true) := by
    rw [List.any_eq_true]
    intro ⟨p, hp, hpk⟩
    rw [beq_iff_eq] at hpk
    exact h (List.mem_map.mpr ⟨p, hp, hpk⟩)
  rw [if_neg hc]

theorem ok_output_append (dv : DictValidator) :
    ∀ (input acc : List (Nat × Nat)),
      ((input.filter (entry_valid dv)).map (norm_key dv)).Nodup →
      (∀ p ∈ input, entry_valid dv p = true → norm_key dv p ∉ acc.map Prod.fst) →
      ok_output dv input acc = acc ++ (input.filter (entry_valid dv)).map (norm_pair dv) := by
  intro input
  induction input with
  | nil =>
    intro acc _ _
    simp [ok_output]
  | cons head rest ih =>
    intro acc hnd hfresh
    by_cases hv : entry_valid dv head = true
    · obtain ⟨key, value⟩ := head
      cases hk : dv.key_validator key with
      | error e =>
        exfalso
        simp [entry_valid, key_fails, hk] at hv
      | ok nk =>
        cases hvv : dv.value_validator value with
        | error e =>
          exfalso
          simp [entry_valid, key_fails, value_fails, hk, hvv] at hv
        | ok nv =>
          have hnk : norm_key dv (key, value) = nk := by simp [norm_key, hk]
          have hnp : norm_pair dv (key, value) = (nk, nv) := by
            simp [norm_pair, norm_key, hk, hvv]
          have hfk : nk ∉ acc.map Prod.fst := by
            have hx := hfresh (key, value) (by simp) hv
            rwa [hnk] at hx
          have hfilter : ((key, value) :: rest).filter (entry_valid dv) =
              (key, value) :: rest.filter (entry_valid dv) :=
            List.filter_cons_of_pos hv
          rw [hfilter] at hnd
          rw [List.map_cons] at hnd
          have hnotin := (List.nodup_cons.mp hnd).1
          have hnd' := (List.nodup_cons.mp hnd).2
          have hstep : ok_output dv ((key, value) :: rest) acc =
              ok_output dv rest (set_item acc nk nv) := by
            simp [ok_output, hk, hvv]
          have hfresh' : ∀ p ∈ rest, entry_valid dv p = true →
              norm_key dv p ∉ (acc ++ [(nk, nv)]).map Prod.fst := by
            intro p hp hpv
            rw [List.map_append]
            rw [List.mem_append]
            rintro (hin | hin)
            · exact hfresh p (by simp [hp]) hpv hin
            · simp at hin
              apply hnotin
              rw [hnk, ← hin]
              exact List.mem_map.mpr ⟨p, List.mem_filter.mpr ⟨hp, hpv⟩, rfl⟩
          rw [hstep, set_item_fresh acc nk nv hfk, ih (acc ++ [(nk, nv)]) hnd' hfresh',
            hfilter, List.map_cons, hnp]
          simp
    · have hstep : ok_output dv (head :: rest) acc = ok_output dv rest acc := by
        obtain ⟨key, value⟩ := head
        cases hk : dv.key_validator key with
        | error e => simp [ok_output, hk]
        | ok nk =>
          cases hvv : dv.value_validator value with
          | ok nv =>
            exfalso
            simp [entry_valid, key_fails, value_fails, hk, hvv] at hv
          | error e => simp [ok_output, hk, hvv]
      have hfilter : (head :: rest).filter (entry_valid dv) = rest.filter (entry_valid dv) :=
        List.filter_cons_of_neg (by simpa using hv)
      rw [hfilter] at hnd
      rw [hstep, hfilter]
      exact ih acc hnd (fun p hp hpv => hfresh p (by simp [hp]) hpv)

/-- C1 (amended): over any mapping input whose length bounds pass and
whose child validators report only recoverable errors, each of them
carrying one line error per failure: the dict validator collects one
line error per failed key validation plus one per failed value
validation (an entry whose key and value both fail contributes two);
when any error was recorded the aggregated `LineErrors` is returned and
the partially built output is discarded, otherwise the output is
returned; every entry's errors appear in the aggregate (no
short-circuit on the first failure); and the output contains exactly
the valid entries (one pair per entry on which both validators
succeeded, provided their normalized keys do not collide). -/
theorem dict_collects_all_errors (dv : DictValidator) (input : List (Nat × Nat))
    (hb : bounds_ok dv input = true)
    (hf : ∀ p ∈ input, no_fatal_entry dv p = true)
    (hs : ∀ p ∈ input, single_error_entry dv p = true) :
    (dict_errors dv input).length =
      input.countP (key_fails dv) + input.countP (value_fails dv) ∧
    (dict_errors dv input = [] → validate_dict dv input = Except.ok (ok_output dv input [])) ∧
    (dict_errors dv input ≠ [] →
      validate_dict dv input = Except.error (ValErr.lineErrors (dict_errors dv input))) ∧
    (∀ p ∈ input, ∀ e ∈ entry_errors dv p, e ∈ dict_errors dv input) ∧
    (((input.filter (entry_valid dv)).map (norm_key dv)).Nodup →
      ok_output dv input [] = (input.filter (entry_valid dv)).map (norm_pair dv) ∧
      (ok_output dv input []).length = input.countP (entry_valid dv)) := by
  have hentries := validate_entries_eq dv input [] [] hf
  have hvd : validate_dict dv input = validate_dict_entries dv input :=
    validate_dict_bounds_pass dv input hb
  refine ⟨dict_errors_length dv input hf hs, ?_, ?_, ?_, ?_⟩
  · intro hnil
    rw [hvd]
    unfold validate_dict_entries
    rw [hentries]
    simp [hnil]
  · intro hne
    rw [hvd]
    unfold validate_dict_entries
    rw [hentries]
    simp only [List.nil_append]
    cases hd : dict_errors dv input with
    | nil => exact absurd hd hne
    | cons e es => rfl
  · intro p hp e hep
    rw [dict_errors]
    exact List.mem_flatMap.mpr ⟨p, hp, hep⟩
  · intro hnd
    have ho := ok_output_append dv input [] hnd (by intro p hp hpv; simp)
    constructor
    · simpa using ho
    · rw [ho]
      simp [List.countP_eq_length_filter]

def dv0 : DictValidator :=
  ⟨fun k => if k == 0 then Except.error (ValErr.lineErrors [⟨ErrKind.other 1, []⟩]) else Except.ok k,
   fun v => if v == 0 then Except.error (ValErr.lineErrors [⟨ErrKind.other 2, []⟩]) else Except.ok v,
   none, none⟩

/-- C1 counterexample: a one-entry mapping whose single entry has both
an invalid key and an invalid value.  It has exactly one invalid entry
(`k = 1`), yet validation returns two line errors, refuting "exactly k
line errors" for mappings with k invalid entries. -/
theorem dict_error_count_cex :
    [((0 : Nat), (0 : Nat))].countP (fun p => !entry_valid dv0 p) = 1 ∧
    validate_dict dv0 [(0, 0)] = Except.error (ValErr.lineErrors
      [⟨ErrKind.other 1, [LocItem.i 0, LocItem.s keyMarker]⟩,
       ⟨ErrKind.other 2, [LocItem.i 0]⟩]) :=
  ⟨by decide, rfl⟩

def dv1 : DictValidator :=
  ⟨fun k => if k == 1 then Except.error (ValErr.lineErrors [⟨ErrKind.other 3, []⟩]) else Except.ok k,
   fun v => Except.ok v, none, none⟩

/-- C1 witness: on the two-entry input `[(1, 5), (2, 6)]` under a key
validator that rejects key `1`, the collected errors number exactly one
(the failed key validation), validation returns the aggregated
`LineErrors` discarding the output, and the output that was built
contains exactly the one valid entry `(2, 6)`. -/
theorem dict_collects_all_errors_witness :
    (dict_errors dv1 [(1, 5), (2, 6)]).length = 1 ∧
    validate_dict dv1 [(1, 5), (2, 6)] =
      Except.error (ValErr.lineErrors (dict_errors dv1 [(1, 5), (2, 6)])) ∧
    ok_output dv1 [(1, 5), (2, 6)] [] = [(2, 6)] := by
  have h := dict_collects_all_errors dv1 [(1, 5), (2, 6)] (by decide) (by decide) (by decide)
  refine ⟨?_, ?_, ?_⟩
  · rw [h.1]
    decide
  · exact h.2.2.1 (by decide)
  · rw [(h.2.2.2.2 (by decide)).1]
    decide

/-- C4: when the key validator fails recoverably on a mapping entry,
each resulting line error is recorded by pushing first the literal
`"[key]"` marker and then the original key (the marker precedes the key
in the frame push order, so the final outside-in path reads
`[key, "[key]", ...]`), carrying both the synthetic marker and the
original key; nothing is added to the output mapping for that pair.  A
recoverable value failure is recorded under the original key alone. -/
theorem dict_key_error_location (dv : DictValidator) (key value : Nat) (es : List LineErr)
    (hmin : dv.min_items = none) (hmax : dv.max_items = none) :
    (dv.key_validator key = Except.error (ValErr.lineErrors es) → es ≠ [] →
      (∃ nv, dv.value_validator value = Except.ok nv) →
      validate_dict dv [(key, value)] = Except.error (ValErr.lineErrors (es.map (fun e =>
        withOuterLocation (LocItem.i key) (withOuterLocation (LocItem.s keyMarker) e)))) ∧
      ∀ rest output, ok_output dv ((key, value) :: rest) output = ok_output dv rest output) ∧
    (dv.value_validator value = Except.error (ValErr.lineErrors es) → es ≠ [] →
      (∃ nk, dv.key_validator key = Except.ok nk) →
      validate_dict dv [(key, value)] = Except.error (ValErr.lineErrors (es.map (fun e =>
        withOuterLocation (LocItem.i key) e)))) := by
  constructor
  · intro hk hes ⟨nv, hv⟩
    constructor
    · unfold validate_dict
      rw [hmin, hmax]
      unfold validate_dict_entries validate_entries validate_key validate_value
      rw [hk, hv]
      simp only [List.nil_append]
      cases hm : es.map (fun e =>
          withOuterLocation (LocItem.i key) (withOuterLocation (LocItem.s keyMarker) e)) with
      | nil =>
        exact absurd (List.map_eq_nil_iff.mp hm) hes
      | cons a tail =>
        simp [validate_entries, hm]
    · intro rest output
      simp [ok_output, hk]
  · intro hv hes ⟨nk, hk⟩
    unfold validate_dict
    rw [hmin, hmax]
    unfold validate_dict_entries validate_entries validate_key validate_value
    rw [hk, hv]
    simp only [List.nil_append]
    cases hm : es.map (fun e => withOuterLocation (LocItem.i key) e) with
    | nil =>
      exact absurd (List.map_eq_nil_iff.mp hm) hes
    | cons a tail =>
      simp [validate_entries, hm]

def dv4 : DictValidator :=
  ⟨fun k => if k == 7 then Except.error (ValErr.lineErrors [⟨ErrKind.other 9, []⟩]) else Except.ok k,
   fun v => Except.ok v, none, none⟩

/-- C4 witness: a key validator that rejects the key `7` with one line
error yields, on the one-entry mapping `[(7, 3)]`, the single line
error located at `[7, "[key]"]` (the key marker pushed first, then the
key), and the entry contributes nothing to the output. -/
theorem dict_key_error_location_witness :
    validate_dict dv4 [(7, 3)] = Except.error (ValErr.lineErrors
      [⟨ErrKind.other 9, [LocItem.i 7, LocItem.s keyMarker]⟩]) ∧
    ok_output dv4 [(7, 3)] [] = [] := by
  have h := (dict_key_error_location dv4 7 3 [⟨ErrKind.other 9, []⟩] rfl rfl).1 rfl
    (by decide) ⟨3, rfl⟩
  refine ⟨?_, ?_⟩
  · rw [h.1]
    rfl
  · rw [h.2 [] []]
    rfl

/-- C9: the `min_items`/`max_items` bounds are checked against the
input length before any per-entry processing: a too-short mapping fails
immediately with the single `TooShort` line error and a too-long
mapping (whose length passes the `min_items` check, which runs first)
fails immediately with the single `TooLong` line error; in both cases
there are zero per-entry errors and the result does not depend on the
key and value validators at all — they are not applied to any entry. -/
theorem dict_bounds_precheck (f g fA gA : Nat → Except ValErr Nat)
    (minI maxI : Option Nat) (input : List (Nat × Nat)) :
    (∀ m, minI = some m → input.length < m →
      validate_dict ⟨f, g, minI, maxI⟩ input = Except.error (valErrNew (ErrKind.tooShort m)) ∧
      validate_dict ⟨f, g, minI, maxI⟩ input = validate_dict ⟨fA, gA, minI, maxI⟩ input) ∧
    (∀ m, maxI = some m → m < input.length → (∀ m2, minI = some m2 → ¬input.length < m2) →
      validate_dict ⟨f, g, minI, maxI⟩ input = Except.error (valErrNew (ErrKind.tooLong m)) ∧
      validate_dict ⟨f, g, minI, maxI⟩ input = validate_dict ⟨fA, gA, minI, maxI⟩ input) := by
  constructor
  · intro m hm hlen
    subst hm
    simp only [validate_dict]
    constructor
    · rw [if_pos hlen]
    · rw [if_pos hlen]
      rw [if_pos hlen]
  · intro m hm hlen hminok
    subst hm
    cases hmin : minI with
    | none =>
      simp only [validate_dict]
      constructor
      · rw [if_pos hlen]
      · rw [if_pos hlen]
        rw [if_pos hlen]
    | some m2 =>
      have hm2 := hminok m2 hmin
      simp only [validate_dict]
      constructor
      · rw [if_neg hm2, if_pos hlen]
      · rw [if_neg hm2, if_pos hlen]
        rw [if_neg hm2, if_pos hlen]

def dv_fail_all (_ : Nat) : Except ValErr Nat := Except.error (ValErr.fatal 0)

def dv_ok_all (k : Nat) : Except ValErr Nat := Except.ok k

/-- C9 witness: a one-entry mapping against `min_items = 2` fails with
the single `TooShort` error, and against `max_items = 0` with the
single `TooLong` error, identically under a validator pair that would
fail fatally on any entry and one that accepts everything — so neither
child validator was applied. -/
theorem dict_bounds_precheck_witness :
    validate_dict ⟨dv_fail_all, dv_fail_all, some 2, none⟩ [(1, 1)] =
      Except.error (valErrNew (ErrKind.tooShort 2)) ∧
    validate_dict ⟨dv_fail_all, dv_fail_all, some 2, none⟩ [(1, 1)] =
      validate_dict ⟨dv_ok_all, dv_ok_all, some 2, none⟩ [(1, 1)] ∧
    validate_dict ⟨dv_fail_all, dv_fail_all, none, some 0⟩ [(1, 1)] =
      Except.error (valErrNew (ErrKind.tooLong 0)) ∧
    validate_dict ⟨dv_fail_all, dv_fail_all, none, some 0⟩ [(1, 1)] =
      validate_dict ⟨dv_ok_all, dv_ok_all, none, some 0⟩ [(1, 1)] := by
  have h1 := (dict_bounds_precheck dv_fail_all dv_fail_all dv_ok_all dv_ok_all
    (some 2) none [(1, 1)]).1 2 rfl (by decide)
  have h2 := (dict_bounds_precheck dv_fail_all dv_fail_all dv_ok_all dv_ok_all
    none (some 0) [(1, 1)]).2 0 rfl (by decide) (fun m2 hm2 => Option.noConfusion hm2)
  exact ⟨h1.1, h1.2, h2.1, h2.2⟩
